import Mathlib

/-!
# sfs: block mapping and space accounting (src/file.c, src/simplefs.h)

A shallow embedding of `sfs_file_get_block`, `sfs_write_begin` and
`sfs_write_end`.  Machine integers are `Nat`/`Int` with the C conversions
written out (`toU32`, `toU64`, `toS32`, `toS64`).  The allocator helpers of
`bitmap.h` and the Linux helpers (`block_write_begin`, `generic_write_end`,
`current_time`) are parameters of the embedding.
-/

namespace Sfs

/-! ## Constants (src/simplefs.h) -/

/-- Block number of the superblock: `#define SIMPLEFS_SB_BLOCK_NR 0`. -/
def SIMPLEFS_SB_BLOCK_NR : Nat := 0

/-- Block size: `#define SIMPLEFS_BLOCK_SIZE (1 << 12)`. -/
def SIMPLEFS_BLOCK_SIZE : Nat := 1 <<< 12

/-- Maximum file size: `#define SIMPLEFS_MAX_FILESIZE (1 << 22)`. -/
def SIMPLEFS_MAX_FILESIZE : Nat := 1 <<< 22

/-- Linux errno `EIO`. -/
def EIO : Int := 5

/-- Linux errno `EFBIG`. -/
def EFBIG : Int := 27

/-- Linux errno `ENOSPC`. -/
def ENOSPC : Int := 28

/-! ## C integer conversions -/

/-- Conversion to `uint32_t` / `unsigned int`: reduction modulo 2^32. -/
def toU32 (x : Int) : Nat := (x % 4294967296).toNat

/-- Conversion to a 64-bit unsigned type (`sector_t`, `blkcnt_t`): reduction modulo 2^64. -/
def toU64 (x : Int) : Nat := (x % 18446744073709551616).toNat

/-- Conversion to `int` (two's complement, 32 bits). -/
def toS32 (x : Int) : Int :=
  if x % 4294967296 < 2147483648 then x % 4294967296 else x % 4294967296 - 4294967296

/-- Conversion to `loff_t` (two's complement, 64 bits). -/
def toS64 (x : Int) : Int :=
  if x % 18446744073709551616 < 9223372036854775808 then x % 18446744073709551616
  else x % 18446744073709551616 - 18446744073709551616

/-! ## Data model -/

/-- The fields of `struct sfs_sb_info` that the block mapper uses. -/
structure sfs_sb_info where
  /-- Total number of blocks. -/
  nr_blocks : Nat
  /-- Number of free blocks (`uint32_t nr_free_blocks`). -/
  nr_free_blocks : Nat
  /-- In-memory free blocks bitmap (`true` = free). -/
  bfree_bitmap : List Bool
  deriving DecidableEq, Repr

/-- The allocator helpers of `bitmap.h`, which `file.c` includes and calls; the header is
not part of the sources, so both are parameters.  `get_free_block` returns a `uint32_t`
block number, `0` when there is no free block. -/
structure bitmap_ops where
  /-- The call `get_free_block(sbi)`: returned block number and new allocator state. -/
  get_free_block : sfs_sb_info → Nat × sfs_sb_info
  /-- The call `put_block(sbi, bno)`. -/
  put_block : sfs_sb_info → Nat → sfs_sb_info

/-- One call made to the allocator (ghost record). -/
inductive alloc_call where
  /-- A call of `get_free_block` together with what it returned. -/
  | get (ret : Nat)
  /-- A call of `put_block` together with its argument. -/
  | put (bno : Nat)
  deriving DecidableEq, Repr

/-- The fields of the VFS `struct inode` that `file.c` reads and writes. -/
structure inode where
  /-- File size in bytes (`loff_t i_size`). -/
  i_size : Int
  /-- Block count (`blkcnt_t i_blocks`, 64 bits unsigned). -/
  i_blocks : Nat
  /-- Modification time. -/
  i_mtime : Nat
  /-- Change time. -/
  i_ctime : Nat
  /-- Set by `mark_inode_dirty`. -/
  dirty : Bool
  deriving DecidableEq, Repr

/-- The `struct buffer_head *bh_result` that `map_bh` fills in. -/
structure buffer_head where
  /-- The flag `BH_Mapped`. -/
  mapped : Bool
  /-- The field `b_blocknr` (`sector_t`). -/
  b_blocknr : Nat
  deriving DecidableEq, Repr

/-- Everything `file.c` touches for one file.  `blocks` is the memory behind
`bh_index->b_data` seen as `uint32_t` words, subscripted like a C array: the Index Block
proper (`struct sfs_file_index_block`) is the subscripts `0 .. 1023`. -/
structure State where
  /-- The file's inode. -/
  ino : inode
  /-- The superblock info (`SIMPLEFS_SB(sb)`). -/
  sbi : sfs_sb_info
  /-- The words `index->blocks[i]`. -/
  blocks : Int → Nat
  /-- Whether `sb_bread(sb, ci->index_block)` succeeds. -/
  readable : Bool
  /-- Set by `mark_buffer_dirty(bh_index)`. -/
  index_dirty : Bool
  /-- Number of successful `sb_bread` calls (buffer acquisitions). -/
  nr_bread : Nat
  /-- Number of `brelse` calls (buffer releases). -/
  nr_brelse : Nat
  /-- The caller's `bh_result`. -/
  bh_result : buffer_head
  /-- Ghost record of the allocator calls, oldest first. -/
  calls : List alloc_call
  /-- Set by `truncate_pagecache(inode, size)` to the size it was given. -/
  pagecache_cut : Option Int

/-- The Linux helpers that `file.c` calls. -/
structure vfs_ops where
  /-- The call `block_write_begin(mapping, pos, len, flags, pagep, get_block)`. -/
  block_write_begin : (State → Nat → Int → Int × State) → State → Int → Nat → Int × State
  /-- The call `generic_write_end(file, mapping, pos, len, copied, page, fsdata)`. -/
  generic_write_end : State → Int → Nat → Nat → Int × State
  /-- The call `current_time(inode)`. -/
  current_time : State → Nat

/-! ## Kernel buffer primitives -/

/-- Successful `sb_bread`: one more buffer acquisition. -/
def sb_bread (st : State) : Option State :=
  if st.readable then some { st with nr_bread := st.nr_bread + 1 } else none

/-- Release of the index buffer: `brelse(bh_index)`. -/
def brelse (st : State) : State := { st with nr_brelse := st.nr_brelse + 1 }

/-- Kernel `map_bh(bh_result, sb, block)`, whose parameter `block` is a `sector_t`. -/
def map_bh (st : State) (block : Int) : State :=
  { st with bh_result := { mapped := true, b_blocknr := toU64 block } }

/-- Kernel `mark_buffer_dirty(bh_index)`. -/
def mark_buffer_dirty (st : State) : State := { st with index_dirty := true }

/-- Store `index->blocks[i] = v` (the stored value is a `uint32_t`). -/
def set_block (st : State) (i : Int) (v : Int) : State :=
  { st with blocks := fun k => if k = i then toU32 v else st.blocks k }

/-! ## sfs_file_get_block (src/file.c, lines 17-66) -/

/-- The function `sfs_file_get_block(inode, iblock, bh_result, create)`; `iblock` is a
`sector_t`, `create` an `int`, `bno` an `int`. -/
def sfs_file_get_block (A : bitmap_ops) (st : State) (iblock : Nat) (create : Int) :
    Int × State :=
  if iblock ≥ SIMPLEFS_BLOCK_SIZE >>> 2 then (- EFBIG, st)
  else
    match sb_bread st with
    | none => (- EIO, st)
    | some st1 =>
      if st1.blocks iblock = 0 then
        if create = 0 then (0, st1)
        else
          let r := A.get_free_block st1.sbi
          let bno : Int := toS32 r.1
          let st2 : State := { st1 with sbi := r.2, calls := st1.calls ++ [alloc_call.get r.1] }
          if bno = 0 then (- ENOSPC, brelse st2)
          else (0, brelse (map_bh (set_block st2 iblock bno) bno))
      else
        let bno : Int := toS32 (st1.blocks iblock)
        (0, brelse (map_bh st1 bno))

/-! ## sfs_write_begin (src/file.c, lines 93-125) -/

/-- The local `uint32_t nr_allocs` of `sfs_write_begin` when it is compared with
`sbi->nr_free_blocks` (lines 110-114).  `pos + len` and `i_size` are `loff_t`, the division
is C division, `i_blocks - 1` is computed in `blkcnt_t`. -/
def nr_allocs (st : State) (pos : Int) (len : Nat) : Nat :=
  let n0 : Nat := toU32 (Int.tdiv (max (toS64 (pos + len)) st.ino.i_size) SIMPLEFS_BLOCK_SIZE)
  if n0 > toU64 ((st.ino.i_blocks : Int) - 1) then
    toU32 ((n0 : Int) - toU64 ((st.ino.i_blocks : Int) - 1))
  else 0

/-- The function `sfs_write_begin(file, mapping, pos, len, flags, pagep, fsdata)`; `pos` is
a `loff_t`, `len` an `unsigned int`. -/
def sfs_write_begin (A : bitmap_ops) (K : vfs_ops) (st : State) (pos : Int) (len : Nat) :
    Int × State :=
  if toS64 (pos + len) > SIMPLEFS_MAX_FILESIZE then (- ENOSPC, st)
  else if nr_allocs st pos len > st.sbi.nr_free_blocks then (- ENOSPC, st)
  else K.block_write_begin (sfs_file_get_block A) st pos len

/-! ## sfs_write_end (src/file.c, lines 132-189) -/

/-- Body of the truncation loop (lines 181-182):
`put_block(SIMPLEFS_SB(sb), index->blocks[i]); index->blocks[i] = 0;`. -/
def free_entry (A : bitmap_ops) (st : State) (i : Int) : State :=
  set_block
    { st with sbi := A.put_block st.sbi (st.blocks i),
              calls := st.calls ++ [alloc_call.put (st.blocks i)] } i 0

/-- The successive values of `int i` in
`for (i = inode->i_blocks - 1; i < nr_blocks_old - 1; i++)` (line 180).  The initial value
is the `blkcnt_t` value `i_blocks - 1` converted to `int`; the test compares `i`, converted
to `unsigned int`, with the `uint32_t` value `nr_blocks_old - 1`. -/
def truncate_indices (i_blocks : Nat) (nr_blocks_old : Nat) : List Int :=
  let i0 : Int := toS32 (toU64 ((i_blocks : Int) - 1))
  let bound : Nat := toU32 ((nr_blocks_old : Int) - 1)
  (List.range' (toU32 i0) (bound - toU32 i0)).map (fun j : Nat => toS32 (j : Int))

/-- The function `sfs_write_end(file, mapping, pos, len, copied, page, fsdata)`; `ret` is an
`int`, `len` an `unsigned int`, `nr_blocks_old` a `uint32_t`. -/
def sfs_write_end (A : bitmap_ops) (K : vfs_ops) (st : State) (pos : Int) (len copied : Nat) :
    Int × State :=
  let r := K.generic_write_end st pos len copied
  let ret : Int := toS32 r.1
  let st0 : State := r.2
  if toU32 ret < len then (ret, st0)
  else
    let nr_blocks_old : Nat := toU32 st0.ino.i_blocks
    let now : Nat := K.current_time st0
    let st1 : State :=
      { st0 with ino := { st0.ino with
          i_blocks := toU64 (Int.tdiv st0.ino.i_size SIMPLEFS_BLOCK_SIZE + 2),
          i_mtime := now, i_ctime := now, dirty := true } }
    if nr_blocks_old > st1.ino.i_blocks then
      let st2 : State := { st1 with pagecache_cut := some st1.ino.i_size }
      match sb_bread st2 with
      | none => (ret, st2)
      | some st3 =>
        let st4 : State :=
          (truncate_indices st3.ino.i_blocks nr_blocks_old).foldl (free_entry A) st3
        (ret, brelse (mark_buffer_dirty st4))
    else (ret, st1)

/-! ## Concrete collaborators used to run the embedding -/

/-- Modelled from the spec: the allocator of `bitmap.h` (absent from the sources), after the
contract "allocate() -> block_id | none, free(block_id), plus a live count of free blocks".
`get_free_block` hands out the first free bit of the bitmap, or `0` when there is none. -/
def first_fit : bitmap_ops where
  get_free_block := fun s =>
    let i := s.bfree_bitmap.indexOf true
    if i < s.bfree_bitmap.length then
      (i, { s with nr_free_blocks := s.nr_free_blocks - 1,
                   bfree_bitmap := s.bfree_bitmap.set i false })
    else (0, s)
  put_block := fun s bno =>
    { s with nr_free_blocks := s.nr_free_blocks + 1,
             bfree_bitmap := s.bfree_bitmap.set bno true }

/-- An allocator whose `get_free_block` always returns the block number `b`. -/
def const_alloc (b : Nat) : bitmap_ops where
  get_free_block := fun s => (b, { s with nr_free_blocks := s.nr_free_blocks - 1 })
  put_block := fun s _ => { s with nr_free_blocks := s.nr_free_blocks + 1 }

/-- A staging layer for writes that stay inside one page: `block_write_begin` asks
`get_block` for the block of `pos` with `create = 1`; `generic_write_end` reports `copied`
bytes and extends `i_size` to `pos + copied`; the clock reads `1000`. -/
def one_page : vfs_ops where
  block_write_begin := fun get_block st pos _ =>
    get_block st (toU64 (Int.tdiv pos SIMPLEFS_BLOCK_SIZE)) 1
  generic_write_end := fun st pos _ copied =>
    (copied, { st with ino := { st.ino with i_size := max st.ino.i_size (pos + copied) } })
  current_time := fun _ => 1000

/-- A file with the given size, block count and index words, on a volume with `nfree` free
blocks out of 64 (free bitmap: blocks 4 .. 4 + nfree - 1 are free). -/
def mk_state (size : Int) (nblocks : Nat) (blocks : Int → Nat) (nfree : Nat) : State where
  ino := { i_size := size, i_blocks := nblocks, i_mtime := 0, i_ctime := 0, dirty := false }
  sbi := { nr_blocks := 64, nr_free_blocks := nfree,
           bfree_bitmap := List.replicate 4 false ++ List.replicate nfree true }
  blocks := blocks
  readable := true
  index_dirty := false
  nr_bread := 0
  nr_brelse := 0
  bh_result := { mapped := false, b_blocknr := 0 }
  calls := []
  pagecache_cut := none

/-- The worst-case number of new blocks of a write as the specification words it:
`ceil(max(write_offset + write_length, current_size) / block_size) - (current_block_count - 1)`,
floored at zero. -/
def admit_new_blocks_spec (current_size : Nat) (current_block_count : Nat)
    (write_offset write_length : Nat) : Nat :=
  (max (write_offset + write_length) current_size + (SIMPLEFS_BLOCK_SIZE - 1))
      / SIMPLEFS_BLOCK_SIZE
    - (current_block_count - 1)

/-- The value `inode->i_size / SIMPLEFS_BLOCK_SIZE + 2` stored in `inode->i_blocks` by
`sfs_write_end` (line 157). -/
def new_block_count (s : State) : Nat :=
  toU64 (Int.tdiv s.ino.i_size SIMPLEFS_BLOCK_SIZE + 2)

/-- The value of `nr_blocks_old` in `sfs_write_end` (line 154). -/
def old_block_count (s : State) : Nat := toU32 s.ino.i_blocks

/-- A staging layer outside the Linux contract: its `generic_write_end` answers the negative
`int` `-EIO` instead of a byte count and leaves the inode alone; the clock reads `1000`.
It serves to show where the range `0 <= r` of the short-write path ends. -/
def failed_copy : vfs_ops where
  block_write_begin := fun get_block st pos _ =>
    get_block st (toU64 (Int.tdiv pos SIMPLEFS_BLOCK_SIZE)) 1
  generic_write_end := fun st _ _ _ => (- EIO, st)
  current_time := fun _ => 1000

/-- The inode as `sfs_write_end` leaves it after a complete write (lines 157-159). -/
def committed_inode (K : vfs_ops) (s : State) : inode :=
  { s.ino with i_blocks := new_block_count s, i_mtime := K.current_time s,
               i_ctime := K.current_time s, dirty := true }

/-- The state `s` with an Index Block that cannot be read (`sb_bread` returns `NULL`). -/
def unreadable (s : State) : State := { s with readable := false }

/-! ## Basic facts -/

theorem index_capacity : SIMPLEFS_BLOCK_SIZE >>> 2 = 1024 := by decide

theorem block_size_val : SIMPLEFS_BLOCK_SIZE = 4096 := by decide

theorem max_filesize_val : SIMPLEFS_MAX_FILESIZE = 4194304 := by decide

theorem toS32_of_small (x : Nat) (h : x < 2147483648) : toS32 x = x := by
  unfold toS32
  have h1 : (x : Int) % 4294967296 = x := by omega
  rw [h1]
  simp only [ite_eq_left_iff, not_lt]
  intro h2
  omega

theorem toS32_eq_zero (x : Nat) (h : x < 4294967296) : toS32 x = 0 ↔ x = 0 := by
  unfold toS32
  have h1 : (x : Int) % 4294967296 = x := by omega
  rw [h1]
  split <;> omega

theorem toU32_toS32 (x : Nat) (h : x < 4294967296) : toU32 (toS32 x) = x := by
  unfold toU32 toS32
  have h1 : (x : Int) % 4294967296 = x := by omega
  rw [h1]
  split <;> omega

theorem toU64_of_small (x : Nat) (h : x < 18446744073709551616) : toU64 x = x := by
  unfold toU64
  omega

/-! ## The paths of sfs_file_get_block -/

/-- Line 32-33: an index beyond the Index Block is refused before anything is read. -/
theorem get_block_too_large (A : bitmap_ops) (st : State) (iblock : Nat) (create : Int)
    (h : 1024 ≤ iblock) : sfs_file_get_block A st iblock create = (- EFBIG, st) := by
  unfold sfs_file_get_block
  rw [index_capacity, if_pos h]

/-- Line 36-38: the read of the Index Block fails. -/
theorem get_block_read_failure (A : bitmap_ops) (st : State) (iblock : Nat) (create : Int)
    (h : iblock < 1024) (hr : st.readable = false) :
    sfs_file_get_block A st iblock create = (- EIO, st) := by
  unfold sfs_file_get_block sb_bread
  rw [index_capacity, if_neg (by omega)]
  simp [hr]

/-- Line 45-47: a zero entry and `create == 0`; the function returns at once. -/
theorem get_block_hole (A : bitmap_ops) (st : State) (iblock : Nat)
    (h : iblock < 1024) (hr : st.readable = true) (hz : st.blocks iblock = 0) :
    sfs_file_get_block A st iblock 0 = (0, { st with nr_bread := st.nr_bread + 1 }) := by
  unfold sfs_file_get_block sb_bread
  rw [index_capacity, if_neg (by omega)]
  simp [hr, hz]

/-- Line 48-52: a zero entry, `create != 0`, and `get_free_block` answers `0`. -/
theorem get_block_no_space (A : bitmap_ops) (st : State) (iblock : Nat) (create : Int)
    (h : iblock < 1024) (hr : st.readable = true) (hz : st.blocks iblock = 0)
    (hc : create ≠ 0) (hb : toS32 (A.get_free_block st.sbi).1 = 0) :
    sfs_file_get_block A st iblock create =
      (- ENOSPC, { st with nr_bread := st.nr_bread + 1, nr_brelse := st.nr_brelse + 1,
                           sbi := (A.get_free_block st.sbi).2,
                           calls := st.calls ++ [alloc_call.get (A.get_free_block st.sbi).1] }) := by
  unfold sfs_file_get_block sb_bread
  rw [index_capacity, if_neg (by omega)]
  simp [hr, hz, hc, hb, brelse]

/-- Line 48-65: a zero entry, `create != 0`, and `get_free_block` answers a nonzero `int`. -/
theorem get_block_alloc (A : bitmap_ops) (st : State) (iblock : Nat) (create : Int)
    (h : iblock < 1024) (hr : st.readable = true) (hz : st.blocks iblock = 0)
    (hc : create ≠ 0) (hb : toS32 (A.get_free_block st.sbi).1 ≠ 0) :
    sfs_file_get_block A st iblock create =
      (0, { st with nr_bread := st.nr_bread + 1, nr_brelse := st.nr_brelse + 1,
                    sbi := (A.get_free_block st.sbi).2,
                    calls := st.calls ++ [alloc_call.get (A.get_free_block st.sbi).1],
                    blocks := fun k => if k = (iblock : Int)
                                then toU32 (toS32 (A.get_free_block st.sbi).1) else st.blocks k,
                    bh_result := { mapped := true,
                                   b_blocknr := toU64 (toS32 (A.get_free_block st.sbi).1) } }) := by
  unfold sfs_file_get_block sb_bread
  rw [index_capacity, if_neg (by omega)]
  simp [hr, hz, hc, hb, brelse, map_bh, set_block]

/-- Line 55-65: a nonzero entry is converted to `int` and handed to `map_bh`. -/
theorem get_block_mapped (A : bitmap_ops) (st : State) (iblock : Nat) (create : Int)
    (h : iblock < 1024) (hr : st.readable = true) (hz : st.blocks iblock ≠ 0) :
    sfs_file_get_block A st iblock create =
      (0, { st with nr_bread := st.nr_bread + 1, nr_brelse := st.nr_brelse + 1,
                    bh_result := { mapped := true,
                                   b_blocknr := toU64 (toS32 (st.blocks iblock)) } }) := by
  unfold sfs_file_get_block sb_bread
  rw [index_capacity, if_neg (by omega)]
  simp [hr, hz, brelse, map_bh]

/-- The result code of `sfs_file_get_block` below the capacity is `0`, `-EIO` or `-ENOSPC`. -/
theorem get_block_codes (A : bitmap_ops) (st : State) (iblock : Nat) (create : Int)
    (h : iblock < 1024) :
    (sfs_file_get_block A st iblock create).1 = 0 ∨
    (sfs_file_get_block A st iblock create).1 = - EIO ∨
    (sfs_file_get_block A st iblock create).1 = - ENOSPC := by
  unfold sfs_file_get_block
  rw [index_capacity, if_neg (by omega)]
  cases sb_bread st with
  | none => simp
  | some st1 =>
    simp only
    split
    · split
      · simp
      · split <;> simp
    · simp

/-! ## Claims -/

/-- C1: for every logical block index `iblock >= 1024`, every file state, every allocator and
every value of `create`, `sfs_file_get_block` returns `-EFBIG` and hands back the state it
was given (no allocator call is recorded, the Index Block, the free count and everything
else are untouched); for `iblock < 1024` the result is never `-EFBIG`. -/
theorem C1_file_too_large (A : bitmap_ops) (st : State) (iblock : Nat) (create : Int) :
    (1024 ≤ iblock →
      sfs_file_get_block A st iblock create = (- EFBIG, st) ∧
      (sfs_file_get_block A st iblock create).2.calls = st.calls ∧
      (sfs_file_get_block A st iblock create).2.blocks = st.blocks ∧
      (sfs_file_get_block A st iblock create).2.sbi.nr_free_blocks = st.sbi.nr_free_blocks) ∧
    (iblock < 1024 → (sfs_file_get_block A st iblock create).1 ≠ - EFBIG) := by
  constructor
  · intro h
    rw [get_block_too_large A st iblock create h]
    exact ⟨rfl, rfl, rfl, rfl⟩
  · intro h
    rcases get_block_codes A st iblock create h with h0 | h0 | h0 <;> rw [h0] <;> decide

/-- C1 at block 1024 (refused) and block 1023 (not refused) of an empty file. -/
theorem C1_file_too_large_witness :
    (sfs_file_get_block first_fit (mk_state 0 1 (fun _ => 0) 3) 1024 1).1 = - EFBIG ∧
    (sfs_file_get_block first_fit (mk_state 0 1 (fun _ => 0) 3) 1024 1).2.calls = [] ∧
    (sfs_file_get_block first_fit (mk_state 0 1 (fun _ => 0) 3) 1023 1).1 ≠ - EFBIG :=
  ⟨congrArg Prod.fst
      ((C1_file_too_large first_fit (mk_state 0 1 (fun _ => 0) 3) 1024 1).1 (by decide)).1,
   ((C1_file_too_large first_fit (mk_state 0 1 (fun _ => 0) 3) 1024 1).1 (by decide)).2.1,
   (C1_file_too_large first_fit (mk_state 0 1 (fun _ => 0) 3) 1023 1).2 (by decide)⟩

/-- What a successful allocation does when the allocator's answer fits in an `int`
(`0 < b < 2^31`): the block `b` is mapped, the entry becomes `b`, the other words keep their
value and one `get_free_block` call is recorded. -/
theorem get_block_alloc_small (A : bitmap_ops) (st : State) (iblock : Nat) (create : Int)
    (h : iblock < 1024) (hr : st.readable = true) (hz : st.blocks iblock = 0)
    (hc : create ≠ 0) (hb0 : (A.get_free_block st.sbi).1 ≠ 0)
    (hb : (A.get_free_block st.sbi).1 < 2147483648) :
    (sfs_file_get_block A st iblock create).1 = 0 ∧
    (sfs_file_get_block A st iblock create).2.bh_result =
      { mapped := true, b_blocknr := (A.get_free_block st.sbi).1 } ∧
    (sfs_file_get_block A st iblock create).2.blocks iblock = (A.get_free_block st.sbi).1 ∧
    (∀ k : Int, k ≠ iblock →
      (sfs_file_get_block A st iblock create).2.blocks k = st.blocks k) ∧
    (sfs_file_get_block A st iblock create).2.calls =
      st.calls ++ [alloc_call.get (A.get_free_block st.sbi).1] ∧
    (sfs_file_get_block A st iblock create).2.sbi = (A.get_free_block st.sbi).2 := by
  have hs : toS32 (A.get_free_block st.sbi).1 = ((A.get_free_block st.sbi).1 : Int) :=
    toS32_of_small _ hb
  have hne : toS32 (A.get_free_block st.sbi).1 ≠ 0 := by
    rw [hs]
    exact_mod_cast hb0
  rw [get_block_alloc A st iblock create h hr hz hc hne, hs]
  have hu32 : toU32 ((A.get_free_block st.sbi).1 : Int) = (A.get_free_block st.sbi).1 := by
    unfold toU32
    omega
  have hu64 : toU64 ((A.get_free_block st.sbi).1 : Int) = (A.get_free_block st.sbi).1 := by
    unfold toU64
    omega
  refine ⟨rfl, ?_, ?_, ?_, rfl, rfl⟩
  · simp [hu64]
  · simp [hu32]
  · intro k hk
    simp [hk]

/-- C2 (failing input): on an empty file, with `create = 1` and an allocator that answers
block `2147483648` (a `uint32_t` block number that does not fit in `int bno`), the call
succeeds, records one allocator call and stores `2147483648` in entry `0`, but the block
handed to `map_bh` is `18446744071562067968`, the sign extension of `bno`, not the block
that was allocated. -/
theorem C2_alloc_maps_sign_extended :
    (sfs_file_get_block (const_alloc 2147483648) (mk_state 0 1 (fun _ => 0) 3) 0 1).1 = 0 ∧
    (sfs_file_get_block (const_alloc 2147483648) (mk_state 0 1 (fun _ => 0) 3) 0 1).2.calls
      = [alloc_call.get 2147483648] ∧
    (sfs_file_get_block (const_alloc 2147483648) (mk_state 0 1 (fun _ => 0) 3) 0 1).2.blocks 0
      = 2147483648 ∧
    (sfs_file_get_block (const_alloc 2147483648) (mk_state 0 1 (fun _ => 0) 3) 0 1).2.bh_result
      = { mapped := true, b_blocknr := 18446744071562067968 } := by
  decide

/-- No path of `sfs_file_get_block` calls `mark_buffer_dirty`: the dirty mark of the index
buffer is the same after the call as before, whatever the outcome. -/
theorem get_block_index_dirty (A : bitmap_ops) (st : State) (iblock : Nat) (create : Int) :
    (sfs_file_get_block A st iblock create).2.index_dirty = st.index_dirty := by
  unfold sfs_file_get_block sb_bread
  split
  · rfl
  · cases hr : st.readable with
    | false => simp
    | true =>
      simp only [if_true]
      split
      · split
        · rfl
        · split <;> rfl
      · rfl

/-- C3 (failing input): on an empty file with a clean index buffer, `create = 1` and a
first-fit allocator with three free blocks, the call allocates block `4` and records it in
entry `0`, and the index buffer is still not marked dirty when the call returns. -/
theorem C3_alloc_leaves_index_clean :
    (sfs_file_get_block first_fit (mk_state 0 1 (fun _ => 0) 3) 0 1).1 = 0 ∧
    (sfs_file_get_block first_fit (mk_state 0 1 (fun _ => 0) 3) 0 1).2.calls
      = [alloc_call.get 4] ∧
    (sfs_file_get_block first_fit (mk_state 0 1 (fun _ => 0) 3) 0 1).2.blocks 0 = 4 ∧
    (mk_state 0 1 (fun _ => 0) 3).index_dirty = false ∧
    (sfs_file_get_block first_fit (mk_state 0 1 (fun _ => 0) 3) 0 1).2.index_dirty = false := by
  decide

/-- A nonzero entry: the call succeeds, hands the entry (converted to `int`) to `map_bh`,
records no allocator call and leaves the index words and the superblock info alone. -/
theorem get_block_mapped_facts (B : bitmap_ops) (s : State) (iblock : Nat) (again : Int)
    (h : iblock < 1024) (hr : s.readable = true) (hz : s.blocks iblock ≠ 0) :
    (sfs_file_get_block B s iblock again).1 = 0 ∧
    (sfs_file_get_block B s iblock again).2.bh_result =
      { mapped := true, b_blocknr := toU64 (toS32 (s.blocks iblock)) } ∧
    (sfs_file_get_block B s iblock again).2.calls = s.calls ∧
    (sfs_file_get_block B s iblock again).2.blocks = s.blocks ∧
    (sfs_file_get_block B s iblock again).2.sbi = s.sbi := by
  rw [get_block_mapped B s iblock again h hr hz]
  exact ⟨rfl, rfl, rfl, rfl, rfl⟩

/-- Stability of a mapping: after a call that allocated (`create != 0`, zero entry, nonzero
answer of the allocator), any later call for the same index, with any `create` and any
allocator, succeeds, maps the same block as the first call, records no allocator call and
leaves the index words and the superblock info as they were. -/
theorem get_block_stable (A B : bitmap_ops) (st : State) (iblock : Nat) (create again : Int)
    (h : iblock < 1024) (hr : st.readable = true) (hz : st.blocks iblock = 0)
    (hc : create ≠ 0) (hlt : (A.get_free_block st.sbi).1 < 4294967296)
    (hb : (A.get_free_block st.sbi).1 ≠ 0) :
    (sfs_file_get_block B (sfs_file_get_block A st iblock create).2 iblock again).1 = 0 ∧
    (sfs_file_get_block B (sfs_file_get_block A st iblock create).2 iblock again).2.bh_result
      = (sfs_file_get_block A st iblock create).2.bh_result ∧
    (sfs_file_get_block B (sfs_file_get_block A st iblock create).2 iblock again).2.calls
      = (sfs_file_get_block A st iblock create).2.calls ∧
    (sfs_file_get_block B (sfs_file_get_block A st iblock create).2 iblock again).2.blocks
      = (sfs_file_get_block A st iblock create).2.blocks ∧
    (sfs_file_get_block B (sfs_file_get_block A st iblock create).2 iblock again).2.sbi
      = (sfs_file_get_block A st iblock create).2.sbi := by
  have hne : toS32 (A.get_free_block st.sbi).1 ≠ 0 := by
    intro h0
    exact hb ((toS32_eq_zero _ hlt).1 h0)
  have hu : toU32 (toS32 (A.get_free_block st.sbi).1) = (A.get_free_block st.sbi).1 :=
    toU32_toS32 _ hlt
  have e := get_block_alloc A st iblock create h hr hz hc hne
  have r1 : (sfs_file_get_block A st iblock create).2.readable = true := by
    rw [e]
    exact hr
  have b1 : (sfs_file_get_block A st iblock create).2.blocks iblock
      = (A.get_free_block st.sbi).1 := by
    rw [e]
    simp [hu]
  have m1 : (sfs_file_get_block A st iblock create).2.bh_result
      = { mapped := true, b_blocknr := toU64 (toS32 (A.get_free_block st.sbi).1) } := by
    rw [e]
  have f := get_block_mapped_facts B (sfs_file_get_block A st iblock create).2 iblock again h r1
    (by rw [b1]; exact hb)
  rw [b1] at f
  rw [m1]
  exact f

/-- C4 (failing input): the Index Block of the file holds the nonzero entry `2147483648` at
index `0`; a lookup (`create = 0`) succeeds without any allocator call and without changing
the entry, but the block handed to `map_bh` is `18446744071562067968`, not the entry. -/
theorem C4_entry_not_returned_as_is :
    (sfs_file_get_block first_fit
      (mk_state 4096 3 (fun k => if k = 0 then 2147483648 else 0) 3) 0 0).1 = 0 ∧
    (sfs_file_get_block first_fit
      (mk_state 4096 3 (fun k => if k = 0 then 2147483648 else 0) 3) 0 0).2.calls = [] ∧
    (sfs_file_get_block first_fit
      (mk_state 4096 3 (fun k => if k = 0 then 2147483648 else 0) 3) 0 0).2.blocks 0
      = 2147483648 ∧
    (sfs_file_get_block first_fit
      (mk_state 4096 3 (fun k => if k = 0 then 2147483648 else 0) 3) 0 0).2.bh_result
      = { mapped := true, b_blocknr := 18446744071562067968 } := by
  decide

/-- C5: for every `iblock < 1024` whose Index Block entry, as read by the call, is `0`,
`sfs_file_get_block` with `create = 0` reports a hole: it returns `0`, leaves `bh_result`
unmapped as it was, records no allocator call and leaves the index words, the superblock
info (free count included), the dirty mark and the inode unchanged. -/
theorem C5_hole_without_create (A : bitmap_ops) (st : State) (iblock : Nat)
    (h : iblock < 1024) (hr : st.readable = true) (hz : st.blocks iblock = 0) :
    (sfs_file_get_block A st iblock 0).1 = 0 ∧
    (sfs_file_get_block A st iblock 0).2.bh_result = st.bh_result ∧
    (sfs_file_get_block A st iblock 0).2.calls = st.calls ∧
    (sfs_file_get_block A st iblock 0).2.blocks = st.blocks ∧
    (sfs_file_get_block A st iblock 0).2.sbi = st.sbi ∧
    (sfs_file_get_block A st iblock 0).2.index_dirty = st.index_dirty ∧
    (sfs_file_get_block A st iblock 0).2.ino = st.ino := by
  rw [get_block_hole A st iblock h hr hz]
  exact ⟨rfl, rfl, rfl, rfl, rfl, rfl, rfl⟩

/-- C5 on index 7 of an empty file: a hole, nothing mapped, no allocator call. -/
theorem C5_hole_without_create_witness :
    (sfs_file_get_block first_fit (mk_state 0 1 (fun _ => 0) 3) 7 0).1 = 0 ∧
    (sfs_file_get_block first_fit (mk_state 0 1 (fun _ => 0) 3) 7 0).2.bh_result
      = { mapped := false, b_blocknr := 0 } ∧
    (sfs_file_get_block first_fit (mk_state 0 1 (fun _ => 0) 3) 7 0).2.calls = [] :=
  have w := C5_hole_without_create first_fit (mk_state 0 1 (fun _ => 0) 3) 7
    (by decide) rfl rfl
  ⟨w.1, w.2.1, w.2.2.1⟩

/-- C6: for every `iblock < 1024` whose entry, as read by the call, is `0`, with
`create != 0` and an allocator whose `get_free_block` answers `0`: `sfs_file_get_block`
returns `-ENOSPC`, maps nothing, and leaves every index word, the dirty mark and the inode
unchanged; the index buffer is released; the only allocator activity is that one failed
call, so the superblock info is what that call left (unchanged when a failed call leaves
the allocator alone). -/
theorem C6_out_of_space (A : bitmap_ops) (st : State) (iblock : Nat) (create : Int)
    (h : iblock < 1024) (hr : st.readable = true) (hz : st.blocks iblock = 0)
    (hc : create ≠ 0) (hb : (A.get_free_block st.sbi).1 = 0) :
    (sfs_file_get_block A st iblock create).1 = - ENOSPC ∧
    (sfs_file_get_block A st iblock create).2.bh_result = st.bh_result ∧
    (sfs_file_get_block A st iblock create).2.blocks = st.blocks ∧
    (sfs_file_get_block A st iblock create).2.index_dirty = st.index_dirty ∧
    (sfs_file_get_block A st iblock create).2.ino = st.ino ∧
    (sfs_file_get_block A st iblock create).2.calls = st.calls ++ [alloc_call.get 0] ∧
    (sfs_file_get_block A st iblock create).2.sbi = (A.get_free_block st.sbi).2 ∧
    ((A.get_free_block st.sbi).2 = st.sbi →
      (sfs_file_get_block A st iblock create).2.sbi = st.sbi) ∧
    (sfs_file_get_block A st iblock create).2.nr_bread = st.nr_bread + 1 ∧
    (sfs_file_get_block A st iblock create).2.nr_brelse = st.nr_brelse + 1 := by
  have hb0 : toS32 (A.get_free_block st.sbi).1 = 0 := by
    rw [hb]
    decide
  rw [get_block_no_space A st iblock create h hr hz hc hb0, hb]
  exact ⟨rfl, rfl, rfl, rfl, rfl, rfl, rfl, fun e => e, rfl, rfl⟩

/-- C6 on an empty file of a volume without free blocks. -/
theorem C6_out_of_space_witness :
    (sfs_file_get_block first_fit (mk_state 0 1 (fun _ => 0) 0) 0 1).1 = - ENOSPC ∧
    (sfs_file_get_block first_fit (mk_state 0 1 (fun _ => 0) 0) 0 1).2.bh_result
      = { mapped := false, b_blocknr := 0 } ∧
    (sfs_file_get_block first_fit (mk_state 0 1 (fun _ => 0) 0) 0 1).2.sbi
      = (mk_state 0 1 (fun _ => 0) 0).sbi :=
  have w := C6_out_of_space first_fit (mk_state 0 1 (fun _ => 0) 0) 0 1
    (by decide) rfl rfl (by decide) (by decide)
  ⟨w.1, w.2.1, w.2.2.2.2.2.2.2.1 (by decide)⟩

/-! ## The paths of sfs_write_begin -/

/-- The `loff_t` sum `pos + len` is exact for the offsets the VFS passes. -/
theorem toS64_of_range (x : Int) (h0 : 0 ≤ x) (h1 : x < 9223372036854775808) :
    toS64 x = x := by
  unfold toS64
  have h : x % 18446744073709551616 = x := by omega
  rw [h, if_pos h1]

/-- Line 108-109: a write that ends beyond the maximum file size is refused at once. -/
theorem write_begin_beyond_max (A : bitmap_ops) (K : vfs_ops) (st : State) (pos : Int)
    (len : Nat) (h : toS64 (pos + len) > SIMPLEFS_MAX_FILESIZE) :
    sfs_write_begin A K st pos len = (- ENOSPC, st) := by
  unfold sfs_write_begin
  rw [if_pos h]

/-- Line 110-120: a write that ends within the maximum file size is decided by the
comparison of `nr_allocs` with the free-block count. -/
theorem write_begin_within_max (A : bitmap_ops) (K : vfs_ops) (st : State) (pos : Int)
    (len : Nat) (h : ¬ toS64 (pos + len) > SIMPLEFS_MAX_FILESIZE) :
    sfs_write_begin A K st pos len =
      if nr_allocs st pos len > st.sbi.nr_free_blocks then (- ENOSPC, st)
      else K.block_write_begin (sfs_file_get_block A) st pos len := by
  unfold sfs_write_begin
  rw [if_neg h]

/-- C7 (failing input): a file of 100 bytes with block count 2 and its block 0 allocated, on
a volume without free blocks, receives a write of 100 bytes at offset 4096.  The formula of
the specification gives `ceil(4196 / 4096) - (2 - 1) = 1` new block, which exceeds the free
count `0`; the code computes `nr_allocs = 4196 / 4096 - 1 = 0` and goes on to staging, for
every allocator and every staging layer. -/
theorem C7_admission_rounds_down (A : bitmap_ops) (K : vfs_ops) :
    admit_new_blocks_spec 100 2 4096 100 = 1 ∧
    (mk_state 100 2 (fun k => if k = 0 then 4 else 0) 0).sbi.nr_free_blocks = 0 ∧
    nr_allocs (mk_state 100 2 (fun k => if k = 0 then 4 else 0) 0) 4096 100 = 0 ∧
    sfs_write_begin A K (mk_state 100 2 (fun k => if k = 0 then 4 else 0) 0) 4096 100 =
      K.block_write_begin (sfs_file_get_block A)
        (mk_state 100 2 (fun k => if k = 0 then 4 else 0) 0) 4096 100 := by
  refine ⟨by decide, by decide, by decide, ?_⟩
  rw [write_begin_within_max A K _ 4096 100 (by decide)]
  rw [if_neg (by decide)]

/-- C8: for every write whose end `pos + len` (a `loff_t` sum of a non-negative offset, as
the VFS passes it) exceeds `SIMPLEFS_MAX_FILESIZE = 4194304`, `sfs_write_begin` returns
`-ENOSPC` and hands back the state it was given, whatever the free-block count, the file
size, the block count, the allocator and the staging layer: nothing is staged and no field
is read beyond the comparison.  A write that ends exactly at `SIMPLEFS_MAX_FILESIZE`
passes this test: its outcome is the one of the free-space comparison, and it is staged
when `nr_allocs` does not exceed the free count. -/
theorem C8_reject_beyond_max (A : bitmap_ops) (K : vfs_ops) (st : State) (pos : Int)
    (len : Nat) (hpos : 0 ≤ pos) (hsum : pos + len < 9223372036854775808) :
    (pos + len > SIMPLEFS_MAX_FILESIZE →
      sfs_write_begin A K st pos len = (- ENOSPC, st) ∧
      ∀ (sbi : sfs_sb_info) (ino : inode) (B : bitmap_ops) (L : vfs_ops),
        sfs_write_begin B L { st with sbi := sbi, ino := ino } pos len
          = (- ENOSPC, { st with sbi := sbi, ino := ino })) ∧
    (pos + len = SIMPLEFS_MAX_FILESIZE →
      sfs_write_begin A K st pos len =
        (if nr_allocs st pos len > st.sbi.nr_free_blocks then (- ENOSPC, st)
         else K.block_write_begin (sfs_file_get_block A) st pos len) ∧
      (nr_allocs st pos len ≤ st.sbi.nr_free_blocks →
        sfs_write_begin A K st pos len
          = K.block_write_begin (sfs_file_get_block A) st pos len)) := by
  have hs : toS64 (pos + len) = pos + len := toS64_of_range _ (by omega) hsum
  constructor
  · intro h
    have h1 : toS64 (pos + len) > SIMPLEFS_MAX_FILESIZE := by
      rw [hs]
      exact h
    refine ⟨write_begin_beyond_max A K st pos len h1, ?_⟩
    intro sbi ino B L
    exact write_begin_beyond_max B L _ pos len h1
  · intro h
    have h1 : ¬ toS64 (pos + len) > SIMPLEFS_MAX_FILESIZE := by
      rw [hs, h]
      exact lt_irrefl _
    refine ⟨write_begin_within_max A K st pos len h1, ?_⟩
    intro hle
    rw [write_begin_within_max A K st pos len h1, if_neg (by omega)]

/-- C8 on an empty file with three free blocks: one byte at offset 4194304 is refused,
4096 bytes at offset 4190208 (ending exactly at the maximum size) pass the size test. -/
theorem C8_reject_beyond_max_witness :
    sfs_write_begin first_fit one_page (mk_state 0 1 (fun _ => 0) 3) 4194304 1
      = (- ENOSPC, mk_state 0 1 (fun _ => 0) 3) ∧
    sfs_write_begin first_fit one_page (mk_state 0 1 (fun _ => 0) 2000) 4190208 4096
      = one_page.block_write_begin (sfs_file_get_block first_fit)
          (mk_state 0 1 (fun _ => 0) 2000) 4190208 4096 :=
  ⟨((C8_reject_beyond_max first_fit one_page (mk_state 0 1 (fun _ => 0) 3) 4194304 1
      (by decide) (by decide)).1 (by decide)).1,
   ((C8_reject_beyond_max first_fit one_page (mk_state 0 1 (fun _ => 0) 2000) 4190208 4096
      (by decide) (by decide)).2 (by decide)).2 (by decide)⟩

/-- C9 (failing input): the volume has no free block; a file of 100 bytes with block count 2
and only its block 0 allocated receives a write of 100 bytes at offset 4096, which lies in
the unallocated logical block 1.  The admission test passes (`nr_allocs = 0`) and the write
goes to staging, whose `get_block` call for block 1 reads the Index Block and calls the
allocator; the `-ENOSPC` that comes back is the one of `sfs_file_get_block`. -/
theorem C9_zero_free_reaches_index_block :
    (mk_state 100 2 (fun k => if k = 0 then 4 else 0) 0).sbi.nr_free_blocks = 0 ∧
    (mk_state 100 2 (fun k => if k = 0 then 4 else 0) 0).blocks 1 = 0 ∧
    (mk_state 100 2 (fun k => if k = 0 then 4 else 0) 0).nr_bread = 0 ∧
    (sfs_write_begin first_fit one_page
      (mk_state 100 2 (fun k => if k = 0 then 4 else 0) 0) 4096 100).1 = - ENOSPC ∧
    (sfs_write_begin first_fit one_page
      (mk_state 100 2 (fun k => if k = 0 then 4 else 0) 0) 4096 100).2.nr_bread = 1 ∧
    (sfs_write_begin first_fit one_page
      (mk_state 100 2 (fun k => if k = 0 then 4 else 0) 0) 4096 100).2.calls
      = [alloc_call.get 0] := by
  decide

/-! ## The truncation loop of sfs_write_end -/

theorem toU32_zero : toU32 0 = 0 := by decide

/-- One round of the loop zeroes word `i` and leaves the other words alone. -/
theorem free_entry_blocks (A : bitmap_ops) (s : State) (i k : Int) :
    (free_entry A s i).blocks k = if k = i then 0 else s.blocks k := by
  unfold free_entry set_block
  simp [toU32_zero]

/-- After the loop the words whose subscript was visited are `0`, the others unchanged. -/
theorem fold_free_entry_blocks (A : bitmap_ops) (l : List Int) :
    ∀ (s : State) (k : Int),
      (l.foldl (free_entry A) s).blocks k = if k ∈ l then 0 else s.blocks k := by
  induction l with
  | nil => intro s k; simp
  | cons a l ih =>
    intro s k
    rw [List.foldl_cons, ih, free_entry_blocks]
    by_cases h1 : k ∈ l
    · simp [h1]
    · by_cases h2 : k = a
      · simp [h2]
      · simp [h1, h2]

/-- The loop records one `put_block` call per visited subscript, in order, each with the
value the word had before the loop (the subscripts are pairwise distinct). -/
theorem fold_free_entry_calls (A : bitmap_ops) (l : List Int) :
    ∀ (s : State), l.Nodup →
      (l.foldl (free_entry A) s).calls
        = s.calls ++ l.map (fun i => alloc_call.put (s.blocks i)) := by
  induction l with
  | nil => intro s _; simp
  | cons a l ih =>
    intro s hnd
    rw [List.nodup_cons] at hnd
    rw [List.foldl_cons, ih _ hnd.2]
    have hmap : l.map (fun i => alloc_call.put ((free_entry A s a).blocks i))
        = l.map (fun i => alloc_call.put (s.blocks i)) := by
      apply List.map_congr_left
      intro i hi
      rw [free_entry_blocks]
      have hne : i ≠ a := fun e => hnd.1 (e ▸ hi)
      simp [hne]
    rw [hmap]
    simp [free_entry, set_block]

/-- The loop hands the previous values of the visited words to `put_block`, in order. -/
theorem fold_free_entry_sbi (A : bitmap_ops) (l : List Int) :
    ∀ (s : State), l.Nodup →
      (l.foldl (free_entry A) s).sbi = (l.map s.blocks).foldl A.put_block s.sbi := by
  induction l with
  | nil => intro s _; simp
  | cons a l ih =>
    intro s hnd
    rw [List.nodup_cons] at hnd
    rw [List.foldl_cons, ih _ hnd.2]
    have hmap : l.map (free_entry A s a).blocks = l.map s.blocks := by
      apply List.map_congr_left
      intro i hi
      rw [free_entry_blocks]
      have hne : i ≠ a := fun e => hnd.1 (e ▸ hi)
      simp [hne]
    rw [hmap]
    simp [free_entry, set_block]

/-- The loop touches nothing but the index words, the superblock info and the call record. -/
theorem fold_free_entry_frame (A : bitmap_ops) (l : List Int) :
    ∀ (s : State),
      (l.foldl (free_entry A) s).ino = s.ino ∧
      (l.foldl (free_entry A) s).readable = s.readable ∧
      (l.foldl (free_entry A) s).index_dirty = s.index_dirty ∧
      (l.foldl (free_entry A) s).nr_bread = s.nr_bread ∧
      (l.foldl (free_entry A) s).nr_brelse = s.nr_brelse ∧
      (l.foldl (free_entry A) s).bh_result = s.bh_result ∧
      (l.foldl (free_entry A) s).pagecache_cut = s.pagecache_cut := by
  induction l with
  | nil => intro s; simp
  | cons a l ih =>
    intro s
    rw [List.foldl_cons]
    have h := ih (free_entry A s a)
    simpa [free_entry, set_block] using h

/-- Conversion to `int` is one-to-one on `uint32_t` values. -/
theorem toS32_inj (x y : Nat) (hx : x < 4294967296) (hy : y < 4294967296)
    (h : toS32 x = toS32 y) : x = y := by
  have hx2 := toU32_toS32 x hx
  have hy2 := toU32_toS32 y hy
  rw [h] at hx2
  omega

/-- The subscripts of the loop, for block counts `1 <= new < old <= 2^32`: the `int`
conversions of `new - 1, ..., old - 2`. -/
theorem truncate_indices_eq (new old : Nat) (h1 : 1 ≤ new) (h2 : new < old)
    (h3 : old ≤ 4294967296) :
    truncate_indices new old
      = (List.range' (new - 1) (old - new)).map (fun j : Nat => toS32 (j : Int)) := by
  unfold truncate_indices
  have e1 : toU64 ((new : Int) - 1) = new - 1 := by
    unfold toU64
    omega
  have e2 : toU32 (toS32 ((new - 1 : Nat) : Int)) = new - 1 := toU32_toS32 _ (by omega)
  have e3 : toU32 ((old : Int) - 1) = old - 1 := by
    unfold toU32
    omega
  simp only [e1, e2, e3]
  have e4 : old - 1 - (new - 1) = old - new := by omega
  rw [e4]

/-- The subscripts of the loop are pairwise distinct. -/
theorem truncate_range_nodup (a n : Nat) (h : a + n ≤ 4294967296) :
    ((List.range' a n).map (fun j : Nat => toS32 j)).Nodup := by
  apply List.Nodup.map_on
  · intro x hx y hy hxy
    rw [List.mem_range'_1] at hx hy
    exact toS32_inj x y (by omega) (by omega) hxy
  · exact List.nodup_range' a n

/-! ## The paths of sfs_write_end -/

/-- The block count of a file whose size is a valid `loff_t`: `i_size / 4096 + 2`. -/
theorem new_block_count_eq (s : State) (h0 : 0 ≤ s.ino.i_size)
    (h1 : s.ino.i_size < 9223372036854775808) :
    (new_block_count s : Int) = s.ino.i_size / 4096 + 2 := by
  unfold new_block_count toU64
  rw [block_size_val]
  have e : Int.tdiv s.ino.i_size ((4096 : Nat) : Int) = s.ino.i_size / 4096 := by
    rw [Int.tdiv_eq_ediv h0 (by decide)]
    rfl
  rw [e]
  omega

/-- Line 161-186: a complete write that shrinks the block count, with a readable Index
Block.  The inode is updated, the page cache is cut, the Index Block is read, the loop runs
over the subscripts `(int)(new - 1), ..., (int)(old - 2)`, the buffer is marked dirty and
released, and the result of `generic_write_end` is returned. -/
theorem write_end_truncate (A : bitmap_ops) (K : vfs_ops) (st : State) (pos : Int)
    (len copied : Nat) (r : Int) (s0 : State)
    (hg : K.generic_write_end st pos len copied = (r, s0))
    (hcomplete : (len : Int) ≤ r) (hint : r < 2147483648)
    (hsize0 : 0 ≤ s0.ino.i_size) (hsize1 : s0.ino.i_size < 9223372036854775808)
    (hshrink : new_block_count s0 < old_block_count s0)
    (hread : s0.readable = true) :
    sfs_write_end A K st pos len copied =
      (r, brelse (mark_buffer_dirty
        (((List.range' (new_block_count s0 - 1)
            (old_block_count s0 - new_block_count s0)).map (fun j : Nat => toS32 j)).foldl
          (free_entry A)
          { s0 with
            ino := { s0.ino with i_blocks := new_block_count s0,
                                 i_mtime := K.current_time s0,
                                 i_ctime := K.current_time s0, dirty := true },
            pagecache_cut := some s0.ino.i_size,
            nr_bread := s0.nr_bread + 1 }))) := by
  have hr : toS32 r = r := by
    unfold toS32
    have h : r % 4294967296 = r := by omega
    rw [h, if_pos hint]
  have hlen : ¬ toU32 r < len := by
    unfold toU32
    omega
  have hnew := new_block_count_eq s0 hsize0 hsize1
  have hnew1 : 1 ≤ new_block_count s0 := by
    have : (0 : Int) ≤ s0.ino.i_size / 4096 := Int.ediv_nonneg hsize0 (by decide)
    omega
  have hold : old_block_count s0 ≤ 4294967296 := by
    unfold old_block_count toU32
    omega
  have hidx := truncate_indices_eq (new_block_count s0) (old_block_count s0) hnew1 hshrink hold
  unfold sfs_write_end
  simp only [hg, hr, if_neg hlen]
  have hcond : toU32 (s0.ino.i_blocks : Int)
      > toU64 (Int.tdiv s0.ino.i_size (SIMPLEFS_BLOCK_SIZE : Int) + 2) := hshrink
  rw [if_pos hcond]
  simp only [sb_bread, hread, if_true]
  have hidx2 : truncate_indices (toU64 (Int.tdiv s0.ino.i_size (SIMPLEFS_BLOCK_SIZE : Int) + 2))
      (toU32 (s0.ino.i_blocks : Int))
      = (List.range' (new_block_count s0 - 1)
          (old_block_count s0 - new_block_count s0)).map (fun j : Nat => toS32 j) := hidx
  rw [hidx2]
  rfl

/-- C10: truncation loop of `sfs_write_end`.  Let `(r, s0)` be what `generic_write_end`
returned, with the write complete (`len <= r`), the file size a valid non-negative `loff_t`,
`new = i_size / 4096 + 2` smaller than `old = nr_blocks_old`, and a readable Index Block.
Then `sfs_write_end` returns `r` and, writing `(int) j` for the value `toS32 j` of the loop
variable `int i` (which is `j` itself for every `j < 2^31`):
every word with index `j` in `[new - 1, old - 1)` is `0`; `put_block` has been called exactly
once per index of that range, in increasing order, with the value the word had before, and
the superblock info is the result of these calls; every word whose subscript is not in the
range is unchanged; and the index buffer is marked dirty. -/
theorem C10_truncation_loop (A : bitmap_ops) (K : vfs_ops) (st : State) (pos : Int)
    (len copied : Nat) (r : Int) (s0 : State)
    (hg : K.generic_write_end st pos len copied = (r, s0))
    (hcomplete : (len : Int) ≤ r) (hint : r < 2147483648)
    (hsize0 : 0 ≤ s0.ino.i_size) (hsize1 : s0.ino.i_size < 9223372036854775808)
    (hshrink : new_block_count s0 < old_block_count s0)
    (hread : s0.readable = true) :
    (sfs_write_end A K st pos len copied).1 = r ∧
    (∀ j : Nat, new_block_count s0 - 1 ≤ j → j < old_block_count s0 - 1 →
      (sfs_write_end A K st pos len copied).2.blocks (toS32 j) = 0) ∧
    (sfs_write_end A K st pos len copied).2.calls =
      s0.calls ++ (List.range' (new_block_count s0 - 1)
        (old_block_count s0 - new_block_count s0)).map
          (fun j : Nat => alloc_call.put (s0.blocks (toS32 j))) ∧
    (sfs_write_end A K st pos len copied).2.sbi =
      ((List.range' (new_block_count s0 - 1)
        (old_block_count s0 - new_block_count s0)).map
          (fun j : Nat => s0.blocks (toS32 j))).foldl A.put_block s0.sbi ∧
    (∀ k : Int,
      (∀ j : Nat, new_block_count s0 - 1 ≤ j → j < old_block_count s0 - 1 → k ≠ toS32 j) →
      (sfs_write_end A K st pos len copied).2.blocks k = s0.blocks k) ∧
    (sfs_write_end A K st pos len copied).2.index_dirty = true := by
  have hnew := new_block_count_eq s0 hsize0 hsize1
  have hnew1 : 1 ≤ new_block_count s0 := by
    have : (0 : Int) ≤ s0.ino.i_size / 4096 := Int.ediv_nonneg hsize0 (by decide)
    omega
  have hold : old_block_count s0 ≤ 4294967296 := by
    unfold old_block_count toU32
    omega
  have hnd := truncate_range_nodup (new_block_count s0 - 1)
    (old_block_count s0 - new_block_count s0) (by omega)
  rw [write_end_truncate A K st pos len copied r s0 hg hcomplete hint hsize0 hsize1 hshrink
    hread]
  refine ⟨rfl, ?_, ?_, ?_, ?_, ?_⟩
  · intro j hj1 hj2
    show (List.foldl (free_entry A) _ _).blocks (toS32 j) = 0
    rw [fold_free_entry_blocks]
    have hmem : toS32 (j : Int) ∈ (List.range' (new_block_count s0 - 1)
        (old_block_count s0 - new_block_count s0)).map (fun j : Nat => toS32 (j : Int)) := by
      apply List.mem_map.2
      refine ⟨j, ?_, rfl⟩
      rw [List.mem_range'_1]
      omega
    rw [if_pos hmem]
  · show (List.foldl (free_entry A) _ _).calls = _
    rw [fold_free_entry_calls A _ _ hnd, List.map_map]
    rfl
  · show (List.foldl (free_entry A) _ _).sbi = _
    rw [fold_free_entry_sbi A _ _ hnd, List.map_map]
    rfl
  · intro k hk
    show (List.foldl (free_entry A) _ _).blocks k = _
    rw [fold_free_entry_blocks]
    have hmem : ¬ k ∈ (List.range' (new_block_count s0 - 1)
        (old_block_count s0 - new_block_count s0)).map (fun j : Nat => toS32 (j : Int)) := by
      intro hin
      obtain ⟨j, hj, hjk⟩ := List.mem_map.1 hin
      rw [List.mem_range'_1] at hj
      exact hk j hj.1 (by omega) hjk.symm
    rw [if_neg hmem]
  · rfl

/-- C10 on the scenario of the specification: a file that held 5000 bytes (block count 3,
blocks 7 and 8 at indices 0 and 1) is cut and receives a complete write of 100 bytes at
offset 0.  Index 1 is zeroed and its block 8 is the one `put_block` call, index 0 still holds
block 7, and the index buffer is dirty. -/
theorem C10_truncation_loop_witness :
    (sfs_write_end first_fit one_page
      (mk_state 0 3 (fun k => if k = 0 then 7 else if k = 1 then 8 else 0) 3) 0 100 100).1
      = 100 ∧
    (sfs_write_end first_fit one_page
      (mk_state 0 3 (fun k => if k = 0 then 7 else if k = 1 then 8 else 0) 3) 0 100 100).2.blocks 1
      = 0 ∧
    (sfs_write_end first_fit one_page
      (mk_state 0 3 (fun k => if k = 0 then 7 else if k = 1 then 8 else 0) 3) 0 100 100).2.calls
      = [alloc_call.put 8] ∧
    (sfs_write_end first_fit one_page
      (mk_state 0 3 (fun k => if k = 0 then 7 else if k = 1 then 8 else 0) 3) 0 100 100).2.blocks 0
      = 7 ∧
    (sfs_write_end first_fit one_page
      (mk_state 0 3 (fun k => if k = 0 then 7 else if k = 1 then 8 else 0) 3) 0
        100 100).2.index_dirty = true :=
  have w := C10_truncation_loop first_fit one_page
    (mk_state 0 3 (fun k => if k = 0 then 7 else if k = 1 then 8 else 0) 3) 0 100 100
    100 _ rfl (by decide) (by decide) (by decide) (by decide) (by decide) rfl
  ⟨w.1, w.2.1 1 (by decide) (by decide), w.2.2.1,
   w.2.2.2.2.1 0 (fun j hj1 hj2 => by
     have h1 : 1 ≤ j := hj1
     have h2 : j < 2 := hj2
     have h3 : j = 1 := by omega
     subst h3
     decide),
   w.2.2.2.2.2⟩

/-- An `int` in `[0, 2^31)` is its own conversion to `int`. -/
theorem toS32_of_int (r : Int) (h0 : 0 ≤ r) (h1 : r < 2147483648) : toS32 r = r := by
  unfold toS32
  have h : r % 4294967296 = r := by omega
  rw [h, if_pos h1]

/-- Line 149-152: `generic_write_end` reports `0 <= r < len`; its result is returned and
nothing else happens. -/
theorem write_end_short (A : bitmap_ops) (K : vfs_ops) (st : State) (pos : Int)
    (len copied : Nat) (r : Int) (s0 : State)
    (hg : K.generic_write_end st pos len copied = (r, s0))
    (h0 : 0 ≤ r) (hshort : r < len) (hint : r < 2147483648) :
    sfs_write_end A K st pos len copied = (r, s0) := by
  have hr : toS32 r = r := toS32_of_int r h0 hint
  have hlen : toU32 r < len := by
    unfold toU32
    omega
  unfold sfs_write_end
  simp only [hg, hr, if_pos hlen]

/-- Line 154-162 and 187-188: a complete write that does not shrink the block count only
updates the inode. -/
theorem write_end_no_shrink (A : bitmap_ops) (K : vfs_ops) (st : State) (pos : Int)
    (len copied : Nat) (r : Int) (s0 : State)
    (hg : K.generic_write_end st pos len copied = (r, s0))
    (hcomplete : (len : Int) ≤ r) (hint : r < 2147483648)
    (hkeep : ¬ new_block_count s0 < old_block_count s0) :
    sfs_write_end A K st pos len copied = (r, { s0 with ino := committed_inode K s0 }) := by
  have hr : toS32 r = r := toS32_of_int r (by omega) hint
  have hlen : ¬ toU32 r < len := by
    unfold toU32
    omega
  unfold sfs_write_end
  simp only [hg, hr, if_neg hlen]
  have hcond : ¬ toU32 (s0.ino.i_blocks : Int)
      > toU64 (Int.tdiv s0.ino.i_size (SIMPLEFS_BLOCK_SIZE : Int) + 2) := hkeep
  rw [if_neg hcond]
  rfl

/-- Line 161-177: a complete write that shrinks the block count while the Index Block
cannot be read: the inode is updated, the page cache is cut, and the result of
`generic_write_end` is returned. -/
theorem write_end_read_failure (A : bitmap_ops) (K : vfs_ops) (st : State) (pos : Int)
    (len copied : Nat) (r : Int) (s0 : State)
    (hg : K.generic_write_end st pos len copied = (r, s0))
    (hcomplete : (len : Int) ≤ r) (hint : r < 2147483648)
    (hshrink : new_block_count s0 < old_block_count s0)
    (hread : s0.readable = false) :
    sfs_write_end A K st pos len copied =
      (r, { s0 with ino := committed_inode K s0, pagecache_cut := some s0.ino.i_size }) := by
  have hr : toS32 r = r := toS32_of_int r (by omega) hint
  have hlen : ¬ toU32 r < len := by
    unfold toU32
    omega
  unfold sfs_write_end
  simp only [hg, hr, if_neg hlen]
  have hcond : toU32 (s0.ino.i_blocks : Int)
      > toU64 (Int.tdiv s0.ino.i_size (SIMPLEFS_BLOCK_SIZE : Int) + 2) := hshrink
  rw [if_pos hcond]
  simp only [sb_bread, hread]
  rfl

/-- Whatever path a complete write takes, the inode it leaves is `committed_inode`. -/
theorem write_end_inode (A : bitmap_ops) (K : vfs_ops) (st : State) (pos : Int)
    (len copied : Nat) (r : Int) (s0 : State)
    (hg : K.generic_write_end st pos len copied = (r, s0))
    (hcomplete : (len : Int) ≤ r) (hint : r < 2147483648)
    (hsize0 : 0 ≤ s0.ino.i_size) (hsize1 : s0.ino.i_size < 9223372036854775808) :
    (sfs_write_end A K st pos len copied).1 = r ∧
    (sfs_write_end A K st pos len copied).2.ino = committed_inode K s0 := by
  by_cases hshrink : new_block_count s0 < old_block_count s0
  · cases hread : s0.readable with
    | false =>
      rw [write_end_read_failure A K st pos len copied r s0 hg hcomplete hint hshrink hread]
      exact ⟨rfl, rfl⟩
    | true =>
      rw [write_end_truncate A K st pos len copied r s0 hg hcomplete hint hsize0 hsize1
        hshrink hread]
      refine ⟨rfl, ?_⟩
      show (List.foldl (free_entry A) _ _).ino = _
      rw [(fold_free_entry_frame A _ _).1]
      rfl
  · rw [write_end_no_shrink A K st pos len copied r s0 hg hcomplete hint hshrink]
    exact ⟨rfl, rfl⟩

/-- Outside the range of `generic_write_end`, which reports the number of bytes copied: if a
staging layer answered the negative `int` `-5` for a write of 100 bytes, the test
`ret < len` of line 149, which compares `ret` as an `unsigned int`, would not take the
short-write branch, and `sfs_write_end` would return `-5` after setting both timestamps
and the dirty mark. -/
theorem write_end_negative_result :
    (failed_copy.generic_write_end
      (mk_state 100 2 (fun k => if k = 0 then 4 else 0) 3) 0 100 0).1 = -5 ∧
    (-5 : Int) < 100 ∧
    (mk_state 100 2 (fun k => if k = 0 then 4 else 0) 3).ino.dirty = false ∧
    (mk_state 100 2 (fun k => if k = 0 then 4 else 0) 3).ino.i_mtime = 0 ∧
    (sfs_write_end first_fit failed_copy
      (mk_state 100 2 (fun k => if k = 0 then 4 else 0) 3) 0 100 0).1 = -5 ∧
    (sfs_write_end first_fit failed_copy
      (mk_state 100 2 (fun k => if k = 0 then 4 else 0) 3) 0 100 0).2.ino.dirty = true ∧
    (sfs_write_end first_fit failed_copy
      (mk_state 100 2 (fun k => if k = 0 then 4 else 0) 3) 0 100 0).2.ino.i_mtime = 1000 ∧
    (sfs_write_end first_fit failed_copy
      (mk_state 100 2 (fun k => if k = 0 then 4 else 0) 3) 0 100 0).2.ino.i_ctime = 1000 := by
  decide

/-- C12: short write.  For every requested length `len` and every result `r` of
`generic_write_end` that is less than `len` (`r` is the number of bytes copied, an `int` with
`0 <= r`), `sfs_write_end` returns `r` and hands back the state `generic_write_end` left:
block count, timestamps, inode-dirty mark, index words, superblock info (free count
included) and the allocator call record are unchanged. -/
theorem C12_short_write (A : bitmap_ops) (K : vfs_ops) (st : State) (pos : Int)
    (len copied : Nat) (r : Int) (s0 : State)
    (hg : K.generic_write_end st pos len copied = (r, s0))
    (h0 : 0 ≤ r) (hshort : r < len) (hint : r < 2147483648) :
    sfs_write_end A K st pos len copied = (r, s0) ∧
    (sfs_write_end A K st pos len copied).2.ino = s0.ino ∧
    (sfs_write_end A K st pos len copied).2.blocks = s0.blocks ∧
    (sfs_write_end A K st pos len copied).2.sbi = s0.sbi ∧
    (sfs_write_end A K st pos len copied).2.calls = s0.calls := by
  rw [write_end_short A K st pos len copied r s0 hg h0 hshort hint]
  exact ⟨rfl, rfl, rfl, rfl, rfl⟩

/-- C12 on a write of 100 bytes of which 40 were copied: the result is `40` and
the inode keeps its block count, timestamps and clean mark. -/
theorem C12_short_write_witness :
    (sfs_write_end first_fit one_page
      (mk_state 100 2 (fun k => if k = 0 then 4 else 0) 3) 0 100 40).1 = 40 ∧
    (sfs_write_end first_fit one_page
      (mk_state 100 2 (fun k => if k = 0 then 4 else 0) 3) 0 100 40).2.ino
      = { i_size := 100, i_blocks := 2, i_mtime := 0, i_ctime := 0, dirty := false } ∧
    (sfs_write_end first_fit one_page
      (mk_state 100 2 (fun k => if k = 0 then 4 else 0) 3) 0 100 40).2.calls = [] :=
  have w := C12_short_write first_fit one_page
    (mk_state 100 2 (fun k => if k = 0 then 4 else 0) 3) 0 100 40 40 _ rfl
    (by decide) (by decide) (by decide)
  ⟨congrArg Prod.fst w.1, w.2.1, w.2.2.2.2⟩

/-- C13: for every complete write (`generic_write_end` returned an `int` `r >= len`) on a
file whose size after the write is a valid non-negative `loff_t`, `sfs_write_end` returns
`r`, sets `i_blocks` to `i_size / 4096 + 2`, sets `i_mtime` and `i_ctime` to the same
`current_time`, and marks the inode dirty, whichever path it then takes; the size is left as
it was, and `i_blocks - 1` is at least `ceil(i_size / 4096)`, the number of data blocks the
size needs. -/
theorem C13_commit_updates_inode (A : bitmap_ops) (K : vfs_ops) (st : State) (pos : Int)
    (len copied : Nat) (r : Int) (s0 : State)
    (hg : K.generic_write_end st pos len copied = (r, s0))
    (hcomplete : (len : Int) ≤ r) (hint : r < 2147483648)
    (hsize0 : 0 ≤ s0.ino.i_size) (hsize1 : s0.ino.i_size < 9223372036854775808) :
    (sfs_write_end A K st pos len copied).1 = r ∧
    ((sfs_write_end A K st pos len copied).2.ino.i_blocks : Int)
      = s0.ino.i_size / SIMPLEFS_BLOCK_SIZE + 2 ∧
    (sfs_write_end A K st pos len copied).2.ino.i_mtime = K.current_time s0 ∧
    (sfs_write_end A K st pos len copied).2.ino.i_ctime = K.current_time s0 ∧
    (sfs_write_end A K st pos len copied).2.ino.dirty = true ∧
    (sfs_write_end A K st pos len copied).2.ino.i_size = s0.ino.i_size ∧
    ((sfs_write_end A K st pos len copied).2.ino.i_blocks : Int) - 1
      ≥ (s0.ino.i_size + (SIMPLEFS_BLOCK_SIZE - 1)) / SIMPLEFS_BLOCK_SIZE := by
  have hi := write_end_inode A K st pos len copied r s0 hg hcomplete hint hsize0 hsize1
  have hnew := new_block_count_eq s0 hsize0 hsize1
  rw [hi.1, hi.2]
  have hb : ((committed_inode K s0).i_blocks : Int) = s0.ino.i_size / 4096 + 2 := hnew
  rw [hb, block_size_val]
  refine ⟨rfl, rfl, rfl, rfl, rfl, rfl, ?_⟩
  show s0.ino.i_size / 4096 + 2 - 1 ≥ (s0.ino.i_size + (4096 - 1)) / 4096
  omega

/-- C13 on a complete write of 5000 bytes at offset 0 of an empty file: block count
`5000 / 4096 + 2 = 3`, both timestamps `1000`, inode dirty. -/
theorem C13_commit_updates_inode_witness :
    (sfs_write_end first_fit one_page
      (mk_state 0 1 (fun k => if k = 0 then 4 else if k = 1 then 5 else 0) 1)
      0 5000 5000).1 = 5000 ∧
    ((sfs_write_end first_fit one_page
      (mk_state 0 1 (fun k => if k = 0 then 4 else if k = 1 then 5 else 0) 1)
      0 5000 5000).2.ino.i_blocks : Int) = 3 ∧
    (sfs_write_end first_fit one_page
      (mk_state 0 1 (fun k => if k = 0 then 4 else if k = 1 then 5 else 0) 1)
      0 5000 5000).2.ino.i_mtime = 1000 ∧
    (sfs_write_end first_fit one_page
      (mk_state 0 1 (fun k => if k = 0 then 4 else if k = 1 then 5 else 0) 1)
      0 5000 5000).2.ino.i_ctime = 1000 ∧
    (sfs_write_end first_fit one_page
      (mk_state 0 1 (fun k => if k = 0 then 4 else if k = 1 then 5 else 0) 1)
      0 5000 5000).2.ino.dirty = true :=
  have w := C13_commit_updates_inode first_fit one_page
    (mk_state 0 1 (fun k => if k = 0 then 4 else if k = 1 then 5 else 0) 1) 0 5000 5000
    5000 _ rfl (by decide) (by decide) (by decide) (by decide)
  ⟨w.1, w.2.1, w.2.2.1, w.2.2.2.1, w.2.2.2.2.1⟩

/-- The index buffer is released once on the three paths that reach `brelse_index`: a
nonzero entry, a successful allocation, and an allocator without free block. -/
theorem get_block_release_balance (A : bitmap_ops) (st : State) (iblock : Nat) (create : Int)
    (h : iblock < 1024) (hr : st.readable = true)
    (hpath : st.blocks iblock ≠ 0 ∨ create ≠ 0) :
    (sfs_file_get_block A st iblock create).2.nr_bread = st.nr_bread + 1 ∧
    (sfs_file_get_block A st iblock create).2.nr_brelse = st.nr_brelse + 1 := by
  by_cases hz : st.blocks iblock = 0
  · have hc : create ≠ 0 := by
      rcases hpath with h1 | h1
      · exact absurd hz h1
      · exact h1
    by_cases hb : toS32 (A.get_free_block st.sbi).1 = 0
    · rw [get_block_no_space A st iblock create h hr hz hc hb]
      exact ⟨rfl, rfl⟩
    · rw [get_block_alloc A st iblock create h hr hz hc hb]
      exact ⟨rfl, rfl⟩
  · rw [get_block_mapped A st iblock create h hr hz]
    exact ⟨rfl, rfl⟩

/-- C14 (failing input): a lookup (`create = 0`) of the unallocated index 7 of an empty file
with a readable Index Block.  The call returns `0` from line 47 without passing through
`brelse_index`: one buffer has been acquired by `sb_bread` and none released. -/
theorem C14_hole_path_keeps_buffer :
    (mk_state 0 1 (fun _ => 0) 3).nr_bread = 0 ∧
    (mk_state 0 1 (fun _ => 0) 3).nr_brelse = 0 ∧
    (sfs_file_get_block first_fit (mk_state 0 1 (fun _ => 0) 3) 7 0).1 = 0 ∧
    (sfs_file_get_block first_fit (mk_state 0 1 (fun _ => 0) 3) 7 0).2.nr_bread = 1 ∧
    (sfs_file_get_block first_fit (mk_state 0 1 (fun _ => 0) 3) 7 0).2.nr_brelse = 0 := by
  decide

/-- Every return statement of `sfs_write_end` returns `ret`, the result of
`generic_write_end`: the result does not depend on the path taken. -/
theorem write_end_result (A : bitmap_ops) (K : vfs_ops) (st : State) (pos : Int)
    (len copied : Nat) :
    (sfs_write_end A K st pos len copied).1
      = toS32 (K.generic_write_end st pos len copied).1 := by
  unfold sfs_write_end
  simp only
  split
  · rfl
  · split
    · cases sb_bread _ with
      | none => rfl
      | some s3 => rfl
    · rfl

/-- C15 (counterexample): a file that held 5000 bytes (block count 3, blocks 7 and 8) is cut
and receives a complete write of 100 bytes.  With an unreadable Index Block the truncation
frees nothing (no allocator call, entry 1 still holds block 8, block count 2), and the
result `100` is the very result of the same commit with a readable Index Block, whose
truncation frees block 8: the caller cannot tell the two apart. -/
theorem C15_leak_not_reported :
    (sfs_write_end first_fit one_page
      (unreadable (mk_state 0 3 (fun k => if k = 0 then 7 else if k = 1 then 8 else 0) 3))
      0 100 100).2.calls = [] ∧
    (sfs_write_end first_fit one_page
      (unreadable (mk_state 0 3 (fun k => if k = 0 then 7 else if k = 1 then 8 else 0) 3))
      0 100 100).2.blocks 1 = 8 ∧
    (sfs_write_end first_fit one_page
      (unreadable (mk_state 0 3 (fun k => if k = 0 then 7 else if k = 1 then 8 else 0) 3))
      0 100 100).2.ino.i_blocks = 2 ∧
    (sfs_write_end first_fit one_page
      (mk_state 0 3 (fun k => if k = 0 then 7 else if k = 1 then 8 else 0) 3)
      0 100 100).2.calls = [alloc_call.put 8] ∧
    (sfs_write_end first_fit one_page
      (unreadable (mk_state 0 3 (fun k => if k = 0 then 7 else if k = 1 then 8 else 0) 3))
      0 100 100).1
      = (sfs_write_end first_fit one_page
          (mk_state 0 3 (fun k => if k = 0 then 7 else if k = 1 then 8 else 0) 3)
          0 100 100).1 := by
  decide

/-- C15 (amended): when a complete write takes the truncation path and the Index Block
cannot be read, no block is returned to the allocator (no allocator call, superblock info
and free count unchanged, no index word changed, buffer not marked dirty), the block count
keeps its new value, and the result is `r`, the result of `generic_write_end`, which is
what `sfs_write_end` returns on every path: the same value as when the truncation
succeeds. -/
theorem C15_read_failure_leaks_silently (A : bitmap_ops) (K : vfs_ops) (st : State)
    (pos : Int) (len copied : Nat) (r : Int) (s0 : State)
    (hg : K.generic_write_end st pos len copied = (r, s0))
    (hcomplete : (len : Int) ≤ r) (hint : r < 2147483648)
    (hshrink : new_block_count s0 < old_block_count s0)
    (hread : s0.readable = false) :
    (sfs_write_end A K st pos len copied).2.calls = s0.calls ∧
    (sfs_write_end A K st pos len copied).2.sbi = s0.sbi ∧
    (sfs_write_end A K st pos len copied).2.blocks = s0.blocks ∧
    (sfs_write_end A K st pos len copied).2.index_dirty = s0.index_dirty ∧
    (sfs_write_end A K st pos len copied).2.ino.i_blocks = new_block_count s0 ∧
    (sfs_write_end A K st pos len copied).1 = r ∧
    (∀ (B : bitmap_ops) (L : vfs_ops) (st2 s2 : State),
      L.generic_write_end st2 pos len copied = (r, s2) →
      (sfs_write_end B L st2 pos len copied).1 = r) := by
  have hr : toS32 r = r := toS32_of_int r (by omega) hint
  rw [write_end_read_failure A K st pos len copied r s0 hg hcomplete hint hshrink hread]
  refine ⟨rfl, rfl, rfl, rfl, rfl, rfl, ?_⟩
  intro B L st2 s2 h2
  rw [write_end_result, h2]
  exact hr

/-- C15 (amended) on the file that held 5000 bytes, with an unreadable Index Block. -/
theorem C15_read_failure_leaks_silently_witness :
    (sfs_write_end first_fit one_page
      (unreadable (mk_state 0 3 (fun k => if k = 0 then 7 else if k = 1 then 8 else 0) 3))
      0 100 100).2.calls = [] ∧
    (sfs_write_end first_fit one_page
      (unreadable (mk_state 0 3 (fun k => if k = 0 then 7 else if k = 1 then 8 else 0) 3))
      0 100 100).2.sbi.nr_free_blocks = 3 ∧
    (sfs_write_end first_fit one_page
      (unreadable (mk_state 0 3 (fun k => if k = 0 then 7 else if k = 1 then 8 else 0) 3))
      0 100 100).2.ino.i_blocks = 2 ∧
    (sfs_write_end first_fit one_page
      (unreadable (mk_state 0 3 (fun k => if k = 0 then 7 else if k = 1 then 8 else 0) 3))
      0 100 100).1 = 100 :=
  have w := C15_read_failure_leaks_silently first_fit one_page
    (unreadable (mk_state 0 3 (fun k => if k = 0 then 7 else if k = 1 then 8 else 0) 3))
    0 100 100 100 _ rfl (by decide) (by decide) (by decide) rfl
  ⟨w.1, congrArg sfs_sb_info.nr_free_blocks w.2.1, w.2.2.2.2.1, w.2.2.2.2.2.1⟩

/-! ## What the truncation path does to the index words -/

/-- The effect of the truncation path, for use on concrete files: the words at the
subscripts `(int) j`, `new - 1 <= j < old - 1`, are zeroed, one `put_block` call per such
`j` is recorded with the previous value, the other words are unchanged, and the Index Block
stays readable with the caller's `bh_result` untouched. -/
theorem truncate_effect (A : bitmap_ops) (K : vfs_ops) (st : State) (pos : Int)
    (len copied : Nat) (r : Int) (s0 : State)
    (hg : K.generic_write_end st pos len copied = (r, s0))
    (hcomplete : (len : Int) ≤ r) (hint : r < 2147483648)
    (hsize0 : 0 ≤ s0.ino.i_size) (hsize1 : s0.ino.i_size < 9223372036854775808)
    (hshrink : new_block_count s0 < old_block_count s0)
    (hread : s0.readable = true) :
    (∀ j : Nat, new_block_count s0 - 1 ≤ j → j < old_block_count s0 - 1 →
      (sfs_write_end A K st pos len copied).2.blocks (toS32 j) = 0) ∧
    (sfs_write_end A K st pos len copied).2.calls =
      s0.calls ++ (List.range' (new_block_count s0 - 1)
        (old_block_count s0 - new_block_count s0)).map
          (fun j : Nat => alloc_call.put (s0.blocks (toS32 j))) ∧
    (∀ k : Int,
      (∀ j : Nat, new_block_count s0 - 1 ≤ j → j < old_block_count s0 - 1 → k ≠ toS32 j) →
      (sfs_write_end A K st pos len copied).2.blocks k = s0.blocks k) ∧
    (sfs_write_end A K st pos len copied).2.readable = true ∧
    (sfs_write_end A K st pos len copied).2.bh_result = s0.bh_result := by
  have hnew := new_block_count_eq s0 hsize0 hsize1
  have hnew1 : 1 ≤ new_block_count s0 := by
    have : (0 : Int) ≤ s0.ino.i_size / 4096 := Int.ediv_nonneg hsize0 (by decide)
    omega
  have hold : old_block_count s0 ≤ 4294967296 := by
    unfold old_block_count toU32
    omega
  have hnd := truncate_range_nodup (new_block_count s0 - 1)
    (old_block_count s0 - new_block_count s0) (by omega)
  rw [write_end_truncate A K st pos len copied r s0 hg hcomplete hint hsize0 hsize1 hshrink
    hread]
  refine ⟨?_, ?_, ?_, ?_, ?_⟩
  · intro j hj1 hj2
    show (List.foldl (free_entry A) _ _).blocks (toS32 j) = 0
    rw [fold_free_entry_blocks]
    have hmem : toS32 (j : Int) ∈ (List.range' (new_block_count s0 - 1)
        (old_block_count s0 - new_block_count s0)).map (fun j : Nat => toS32 (j : Int)) := by
      apply List.mem_map.2
      refine ⟨j, ?_, rfl⟩
      rw [List.mem_range'_1]
      omega
    rw [if_pos hmem]
  · show (List.foldl (free_entry A) _ _).calls = _
    rw [fold_free_entry_calls A _ _ hnd, List.map_map]
    rfl
  · intro k hk
    show (List.foldl (free_entry A) _ _).blocks k = _
    rw [fold_free_entry_blocks]
    have hmem : ¬ k ∈ (List.range' (new_block_count s0 - 1)
        (old_block_count s0 - new_block_count s0)).map (fun j : Nat => toS32 (j : Int)) := by
      intro hin
      obtain ⟨j, hj, hjk⟩ := List.mem_map.1 hin
      rw [List.mem_range'_1] at hj
      exact hk j hj.1 (by omega) hjk.symm
    rw [if_neg hmem]
  · show (List.foldl (free_entry A) _ _).readable = true
    rw [(fold_free_entry_frame A _ _).2.1]
    exact hread
  · show (List.foldl (free_entry A) _ _).bh_result = _
    rw [(fold_free_entry_frame A _ _).2.2.2.2.2.1]

/-- For a file whose old block count comes from a size below the maximum file size
(`old <= 1025`), every subscript of the truncation loop lies inside the Index Block. -/
theorem truncate_indices_in_bounds (new old : Nat) (h1 : 1 ≤ new) (h2 : new < old)
    (h3 : old ≤ 1025) :
    ∀ i ∈ truncate_indices new old, 0 ≤ i ∧ i < 1024 := by
  intro i hi
  rw [truncate_indices_eq new old h1 h2 (by omega)] at hi
  obtain ⟨j, hj, hji⟩ := List.mem_map.1 hi
  rw [List.mem_range'_1] at hj
  have hs : toS32 (j : Int) = j := toS32_of_small j (by omega)
  rw [← hji, hs]
  omega

/-- C16 (failing input): a file that reached the maximum size 4194304 has block count
`4194304 / 4096 + 2 = 1026`.  When it is cut and a complete write of 100 bytes is committed,
the loop runs over the subscripts `1 .. 1024`: subscript `1024` lies outside the 1024
entries of the Index Block.  The word found there (here `77`) is handed to `put_block` and
overwritten with `0`. -/
theorem C16_truncation_reaches_word_1024 :
    new_block_count (mk_state 4194304 0 (fun _ => 0) 3) = 1026 ∧
    SIMPLEFS_BLOCK_SIZE >>> 2 = 1024 ∧
    (1024 : Int) ∈ truncate_indices 2 1026 ∧
    (mk_state 0 1026 (fun k => if k = 1024 then 77 else 5) 3).blocks 1024 = 77 ∧
    (sfs_write_end first_fit one_page
      (mk_state 0 1026 (fun k => if k = 1024 then 77 else 5) 3) 0 100 100).2.blocks 1024 = 0 ∧
    alloc_call.put 77 ∈
      (sfs_write_end first_fit one_page
        (mk_state 0 1026 (fun k => if k = 1024 then 77 else 5) 3) 0 100 100).2.calls := by
  have e := truncate_effect first_fit one_page
    (mk_state 0 1026 (fun k => if k = 1024 then 77 else 5) 3) 0 100 100 100 _ rfl
    (by decide) (by decide) (by decide) (by decide) (by decide) rfl
  refine ⟨by decide, by decide, ?_, rfl, ?_, ?_⟩
  · rw [truncate_indices_eq 2 1026 (by decide) (by decide) (by decide)]
    exact List.mem_map.2 ⟨1024, by rw [List.mem_range'_1]; omega, by decide⟩
  · have h := e.1 1024 (by decide) (by decide)
    have hs : toS32 ((1024 : Nat) : Int) = 1024 := by decide
    rw [hs] at h
    exact h
  · rw [e.2.1]
    apply List.mem_append_right
    refine List.mem_map.2 ⟨1024, ?_, ?_⟩
    · rw [List.mem_range'_1]
      decide
    · have hs : toS32 ((1024 : Nat) : Int) = 1024 := by decide
      rw [hs]
      rfl

/-- C17 (failing input): a file of 8192 bytes (block count 4) holds blocks 7 and 8 at
indices 0 and 1; index 2 was never written and is a hole.  When the file is cut and a
complete write of 100 bytes is committed, the loop covers indices 1 and 2 and calls
`put_block` twice, the second time with the hole value `0`, which is
`SIMPLEFS_SB_BLOCK_NR`; the range holds one nonzero entry only. -/
theorem C17_put_block_called_with_zero :
    (mk_state 0 4 (fun k => if k = 0 then 7 else if k = 1 then 8 else 0) 3).blocks 1 = 8 ∧
    (mk_state 0 4 (fun k => if k = 0 then 7 else if k = 1 then 8 else 0) 3).blocks 2 = 0 ∧
    truncate_indices 2 4 = [1, 2] ∧
    (sfs_write_end first_fit one_page
      (mk_state 0 4 (fun k => if k = 0 then 7 else if k = 1 then 8 else 0) 3)
      0 100 100).2.calls = [alloc_call.put 8, alloc_call.put SIMPLEFS_SB_BLOCK_NR] ∧
    (([1, 2] : List Int).filter (fun i =>
      decide ((mk_state 0 4 (fun k => if k = 0 then 7 else if k = 1 then 8 else 0) 3).blocks i
        ≠ 0))).length = 1 := by
  decide

/-- The block size as an `int`. -/
theorem block_size_int : ((SIMPLEFS_BLOCK_SIZE : Nat) : Int) = 4096 := by decide

/-- C11 (counterexample): a file of 10000 bytes (block count `10000 / 4096 + 2 = 4`, blocks
7, 8, 9 at indices 0, 1, 2, and a block 10 left at index 3 beyond the size) is cut and a
complete write of 4096 bytes at offset 0 brings its size to 4096.  The byte ranges of
indices 1 and 3 lie entirely beyond 4096, yet the commit frees index 2 only: entries 1 and 3
still hold blocks 8 and 10, neither is handed to `put_block`, and a lookup of index 1 with
`create = 0` maps block 8 instead of reporting a hole. -/
theorem C11_block_at_new_size_kept :
    (4096 : Int) < 10000 ∧ (10000 : Int) ≤ SIMPLEFS_MAX_FILESIZE ∧
    (10000 : Int) / SIMPLEFS_BLOCK_SIZE + 2 = 4 ∧
    (4096 : Int) ≤ 1 * SIMPLEFS_BLOCK_SIZE ∧ (4096 : Int) ≤ 3 * SIMPLEFS_BLOCK_SIZE ∧
    (sfs_write_end first_fit one_page
      (mk_state 0 4 (fun k => if k = 0 then 7 else if k = 1 then 8 else if k = 2 then 9
        else if k = 3 then 10 else 0) 3) 0 4096 4096).2.ino.i_size = 4096 ∧
    (sfs_write_end first_fit one_page
      (mk_state 0 4 (fun k => if k = 0 then 7 else if k = 1 then 8 else if k = 2 then 9
        else if k = 3 then 10 else 0) 3) 0 4096 4096).2.blocks 1 = 8 ∧
    (sfs_write_end first_fit one_page
      (mk_state 0 4 (fun k => if k = 0 then 7 else if k = 1 then 8 else if k = 2 then 9
        else if k = 3 then 10 else 0) 3) 0 4096 4096).2.blocks 3 = 10 ∧
    (sfs_write_end first_fit one_page
      (mk_state 0 4 (fun k => if k = 0 then 7 else if k = 1 then 8 else if k = 2 then 9
        else if k = 3 then 10 else 0) 3) 0 4096 4096).2.calls = [alloc_call.put 9] ∧
    (sfs_file_get_block first_fit
      (sfs_write_end first_fit one_page
        (mk_state 0 4 (fun k => if k = 0 then 7 else if k = 1 then 8 else if k = 2 then 9
          else if k = 3 then 10 else 0) 3) 0 4096 4096).2 1 0).2.bh_result
      = { mapped := true, b_blocknr := 8 } := by
  decide

/-- A logical index whose byte range starts strictly beyond the new size and not beyond
the old size is one of the indices `new - 1 .. old - 2` of the loop. -/
theorem byte_range_in_loop (i : Nat) (S_new S_old : Int) (nw od : Nat)
    (hbeyond : S_new < (i : Int) * 4096) (hwithin : (i : Int) * 4096 ≤ S_old)
    (hnew : (nw : Int) = S_new / 4096 + 2) (hold : (od : Int) = S_old / 4096 + 2) :
    nw < od ∧ nw - 1 ≤ i ∧ i < od - 1 := by
  omega

/-- C11 (amended): let a complete commit leave the size `S_new = i_size`, with
`0 <= S_new < S_old <= SIMPLEFS_MAX_FILESIZE`, the block count before the commit equal to
`S_old / 4096 + 2`, and a readable Index Block.  Then every logical index `i < 1024` whose
byte range starts strictly beyond `S_new` and not beyond `S_old`
(`S_new < i * 4096 <= S_old`) has its entry equal to `0` after the commit, the value the
entry had is the argument of one of the `put_block` calls of this commit, and a following
`sfs_file_get_block` for `i` with `create = 0` reports a hole: it returns `0`, maps nothing
and calls no allocator. -/
theorem C11_truncation_by_byte_range (A B : bitmap_ops) (K : vfs_ops) (st : State)
    (pos : Int) (len copied : Nat) (r : Int) (s0 : State) (S_old : Int) (i : Nat)
    (hg : K.generic_write_end st pos len copied = (r, s0))
    (hcomplete : (len : Int) ≤ r) (hint : r < 2147483648)
    (hsize0 : 0 ≤ s0.ino.i_size) (hlt : s0.ino.i_size < S_old)
    (hmax : S_old ≤ SIMPLEFS_MAX_FILESIZE)
    (hcount : (s0.ino.i_blocks : Int) = S_old / SIMPLEFS_BLOCK_SIZE + 2)
    (hread : s0.readable = true) (hi : i < 1024)
    (hbeyond : s0.ino.i_size < (i : Int) * SIMPLEFS_BLOCK_SIZE)
    (hwithin : (i : Int) * SIMPLEFS_BLOCK_SIZE ≤ S_old) :
    (sfs_write_end A K st pos len copied).2.blocks i = 0 ∧
    alloc_call.put (s0.blocks i) ∈
      (sfs_write_end A K st pos len copied).2.calls.drop s0.calls.length ∧
    (sfs_file_get_block B (sfs_write_end A K st pos len copied).2 i 0).1 = 0 ∧
    (sfs_file_get_block B (sfs_write_end A K st pos len copied).2 i 0).2.bh_result
      = (sfs_write_end A K st pos len copied).2.bh_result ∧
    (sfs_file_get_block B (sfs_write_end A K st pos len copied).2 i 0).2.calls
      = (sfs_write_end A K st pos len copied).2.calls := by
  have hmaxv : ((SIMPLEFS_MAX_FILESIZE : Nat) : Int) = 4194304 := by decide
  rw [block_size_int] at hcount hbeyond hwithin
  rw [hmaxv] at hmax
  have hsize1 : s0.ino.i_size < 9223372036854775808 := by omega
  have hnew := new_block_count_eq s0 hsize0 hsize1
  have hold : (old_block_count s0 : Int) = S_old / 4096 + 2 := by
    unfold old_block_count toU32
    omega
  have hloop := byte_range_in_loop i s0.ino.i_size S_old (new_block_count s0)
    (old_block_count s0) hbeyond hwithin hnew hold
  have hshrink : new_block_count s0 < old_block_count s0 := hloop.1
  have e := truncate_effect A K st pos len copied r s0 hg hcomplete hint hsize0 hsize1
    hshrink hread
  have hs : toS32 (i : Int) = i := toS32_of_small i (Nat.lt_trans hi (by decide))
  have hlo : new_block_count s0 - 1 ≤ i := hloop.2.1
  have hhi : i < old_block_count s0 - 1 := hloop.2.2
  have hzero : (sfs_write_end A K st pos len copied).2.blocks i = 0 := by
    have h := e.1 i hlo hhi
    rw [hs] at h
    exact h
  have hhole := get_block_hole B (sfs_write_end A K st pos len copied).2 i hi e.2.2.2.1 hzero
  refine ⟨hzero, ?_, ?_, ?_, ?_⟩
  · rw [e.2.1, List.drop_left]
    refine List.mem_map.2 ⟨i, ?_, ?_⟩
    · rw [List.mem_range'_1]
      exact ⟨hlo, by
        have h3 := hshrink
        have h4 := hhi
        clear e hloop hold hnew hcount hg
        omega⟩
    · show alloc_call.put (s0.blocks (toS32 (i : Int))) = _
      rw [hs]
  · rw [hhole]
  · rw [hhole]
  · rw [hhole]

/-- C11 (amended) on the file that held 5000 bytes and is cut to 100 bytes, at index 1
(`100 < 4096 <= 5000`): entry 1 is `0`, its block 8 went to `put_block`, and a lookup of
index 1 returns `0` without mapping anything. -/
theorem C11_truncation_by_byte_range_witness :
    (sfs_write_end first_fit one_page
      (mk_state 0 3 (fun k => if k = 0 then 7 else if k = 1 then 8 else 0) 3) 0 100 100).2.blocks 1
      = 0 ∧
    alloc_call.put 8 ∈
      (sfs_write_end first_fit one_page
        (mk_state 0 3 (fun k => if k = 0 then 7 else if k = 1 then 8 else 0) 3)
        0 100 100).2.calls.drop 0 ∧
    (sfs_file_get_block first_fit
      (sfs_write_end first_fit one_page
        (mk_state 0 3 (fun k => if k = 0 then 7 else if k = 1 then 8 else 0) 3)
        0 100 100).2 1 0).1 = 0 ∧
    (sfs_file_get_block first_fit
      (sfs_write_end first_fit one_page
        (mk_state 0 3 (fun k => if k = 0 then 7 else if k = 1 then 8 else 0) 3)
        0 100 100).2 1 0).2.bh_result = { mapped := false, b_blocknr := 0 } :=
  have w := C11_truncation_by_byte_range first_fit first_fit one_page
    (mk_state 0 3 (fun k => if k = 0 then 7 else if k = 1 then 8 else 0) 3) 0 100 100
    100 _ 5000 1 rfl (by decide) (by decide) (by decide) (by decide) (by decide) (by decide)
    rfl (by decide) (by decide) (by decide)
  ⟨w.1, w.2.1, w.2.2.1, w.2.2.2.1.trans (by decide)⟩

end Sfs
